import Mathlib

/-!
# Maintenance-mode script: Route 53 weight toggling

A shallow embedding of `src/main.go`.

Conventions of the embedding:
* a Go pointer field (`*string`, `*int64`, `*bool`, `*AliasTarget`, ...) is an `Option`;
  dereferencing `none` is the Go nil-pointer panic, rendered as the result `none` of the
  embedded function;
* the elements of a `[]*route53.ResourceRecordSet` are records (the SDK decoder never
  yields a nil element), so a slice is a `List ResourceRecordSet`;
* `int64` weights are `Int` (the program only ever writes 0 and 100);
* the network and the terminal are inputs: the successive results of
  `ListResourceRecordSets`, what standard input holds at the prompt, and the provider's
  answer to a change request are fields of `World`; `fmt.Scanln` and the SDK's
  client-side parameter validation are modelled on top of them.
-/

namespace MaintenanceScript

/-! ## Data model (the parts of the `route53` SDK types the program touches) -/

/-- The SDK type `route53.AliasTarget`. -/
structure AliasTarget where
  DNSName : Option String
  EvaluateTargetHealth : Option Bool
  HostedZoneId : Option String
deriving DecidableEq, Repr

/-- The SDK type `route53.GeoLocation`. -/
structure GeoLocation where
  ContinentCode : Option String
  CountryCode : Option String
  SubdivisionCode : Option String
deriving DecidableEq, Repr

/-- The SDK type `route53.ResourceRecord`. -/
structure ResourceRecord where
  Value : Option String
deriving DecidableEq, Repr

/-- The SDK type `route53.ResourceRecordSet`: the fields the program names
(`AliasTarget`, `Name`, `SetIdentifier`, `Weight`, and `Type`, written `Type_` here since
`Type` is reserved) and the remaining fields of the SDK struct, which the program never
names. -/
structure ResourceRecordSet where
  AliasTarget : Option AliasTarget
  Failover : Option String
  GeoLocation : Option GeoLocation
  HealthCheckId : Option String
  MultiValueAnswer : Option Bool
  Name : Option String
  Region : Option String
  ResourceRecords : List ResourceRecord
  SetIdentifier : Option String
  TTL : Option Int
  TrafficPolicyInstanceId : Option String
  Type_ : Option String
  Weight : Option Int
deriving DecidableEq, Repr

/-- The SDK type `route53.Change`. -/
structure Change where
  Action : Option String
  ResourceRecordSet : Option ResourceRecordSet
deriving DecidableEq, Repr

/-- The SDK type `route53.ListResourceRecordSetsInput`. -/
structure ListResourceRecordSetsInput where
  HostedZoneId : Option String
  MaxItems : Option String
  StartRecordIdentifier : Option String
  StartRecordName : Option String
  StartRecordType : Option String
deriving DecidableEq, Repr

/-- The SDK type `route53.ListResourceRecordSetsOutput`. -/
structure ListResourceRecordSetsOutput where
  IsTruncated : Option Bool
  MaxItems : Option String
  NextRecordIdentifier : Option String
  NextRecordName : Option String
  NextRecordType : Option String
  ResourceRecordSets : List ResourceRecordSet
deriving DecidableEq, Repr

/-- The SDK type `route53.ChangeBatch`. -/
structure ChangeBatch where
  Changes : List Change
  Comment : Option String
deriving DecidableEq, Repr

/-- The SDK type `route53.ChangeResourceRecordSetsInput`. -/
structure ChangeResourceRecordSetsInput where
  ChangeBatch : Option ChangeBatch
  HostedZoneId : Option String
deriving DecidableEq, Repr

/-- An `awserr.Error`: the errors the SDK's service calls return carry a code and a
message. -/
structure AwsError where
  code : String
  message : String
deriving DecidableEq, Repr

/-! ## Library functions -/

/-- Does the character list `p` occur as a contiguous block of `s`? -/
def containsSub (p : List Char) : List Char → Bool
  | [] => p.isPrefixOf []
  | c :: cs => p.isPrefixOf (c :: cs) || containsSub p cs

/-- Go's `regexp.MatchString pattern s` for a pattern without metacharacters, which is
what the literal `REGEX` of the program is: such a pattern always compiles (the error
result is nil) and, being unanchored, matches exactly the strings that contain it. -/
def regexpMatchString (pattern s : String) : Bool :=
  containsSub pattern.toList s.toList

/-- Go's `strconv.FormatInt w 10`. -/
def formatInt (w : Int) : String := toString w

/-- The line feed character. -/
def newline : Char := Char.ofNat 10

/-- The white space of Go's `fmt` scanning (`isSpace` in fmt/scan.go): U+0009..U+000D,
U+0020, U+0085, U+00A0, U+1680, U+2000..U+200A, U+2028, U+2029, U+202F, U+205F,
U+3000. -/
def isSpace (c : Char) : Bool :=
  (9 ≤ c.toNat && c.toNat ≤ 13) || c.toNat = 32 || c.toNat = 133 || c.toNat = 160 ||
  c.toNat = 5760 || (8192 ≤ c.toNat && c.toNat ≤ 8202) ||
  (8232 ≤ c.toNat && c.toNat ≤ 8233) || c.toNat = 8239 || c.toNat = 8287 ||
  c.toNat = 12288

/-- What `fmt.Scanln(&prompt)` leaves in `prompt`, which starts out empty, when standard
input holds `stdin`: leading white space other than a newline is skipped; at a newline
or at the end of input the scan fails and `prompt` stays empty; otherwise `prompt` is
the run of characters up to the next white space. Whatever follows that word makes
`Scanln` return an error, which `main` drops, and leaves `prompt` as it is. -/
def scanln (stdin : String) : String :=
  match stdin.toList.dropWhile (fun c => isSpace c && c != newline) with
  | [] => ""
  | c :: cs =>
    if c = newline then "" else String.mk ((c :: cs).takeWhile (fun r => !isSpace r))

/-- Go's `len(*s) < n` never holds of a nil pointer in the SDK's validators: the check
`s != nil && len(*s) < n` passes when the field is unset or has at least `n` bytes. -/
def minLen (n : Nat) : Option String → Bool
  | none => true
  | some s => decide (n ≤ s.utf8ByteSize)

/-- The SDK's `(*AliasTarget).Validate`: the three fields are required. -/
def validateAliasTarget (t : AliasTarget) : Bool :=
  t.DNSName.isSome && t.EvaluateTargetHealth.isSome && t.HostedZoneId.isSome

/-- The SDK's `(*GeoLocation).Validate`: minimum lengths 2, 1 and 1. -/
def validateGeoLocation (g : GeoLocation) : Bool :=
  minLen 2 g.ContinentCode && minLen 1 g.CountryCode && minLen 1 g.SubdivisionCode

/-- The SDK's `(*ResourceRecordSet).Validate`: name and type are required, the region,
set identifier and traffic policy instance id are non-empty when set, and the alias
target, geolocation and resource records are validated when set. -/
def validateResourceRecordSet (r : ResourceRecordSet) : Bool :=
  r.Name.isSome && minLen 1 r.Region && minLen 1 r.SetIdentifier &&
  minLen 1 r.TrafficPolicyInstanceId && r.Type_.isSome &&
  (match r.AliasTarget with
   | none => true
   | some t => validateAliasTarget t) &&
  (match r.GeoLocation with
   | none => true
   | some g => validateGeoLocation g) &&
  r.ResourceRecords.all (fun v => v.Value.isSome)

/-- The SDK's `(*Change).Validate`: action and record set are required. -/
def validateChange (c : Change) : Bool :=
  c.Action.isSome &&
  (match c.ResourceRecordSet with
   | none => false
   | some r => validateResourceRecordSet r)

/-- The SDK's `(*ChangeResourceRecordSetsInput).Validate`: the change batch and a
non-empty zone id are required, and the batch needs at least one change (a nil or empty
`Changes` is rejected), each of them valid. -/
def validateChangeInput (input : ChangeResourceRecordSetsInput) : Bool :=
  input.HostedZoneId.isSome && minLen 1 input.HostedZoneId &&
  (match input.ChangeBatch with
   | none => false
   | some batch => !batch.Changes.isEmpty && batch.Changes.all validateChange)

/-- The call `svc.ChangeResourceRecordSets(input)`: the SDK validates the parameters
first and, when they are invalid, returns an `InvalidParameter` error without sending
anything; otherwise the request is sent and the provider's answer is returned. Gives
the requests sent and the error returned. -/
def changeResourceRecordSets (providerError : Option AwsError)
    (input : ChangeResourceRecordSetsInput) :
    List ChangeResourceRecordSetsInput × Option AwsError :=
  if validateChangeInput input then ([input], providerError)
  else ([], some { code := "InvalidParameter", message := "validation error(s) found" })

/-! ## The functions of `main.go` -/

/-- Function `determineContext` (main.go 69-89): domain, hosted zone id and error; the error is
`none` for Go's nil. -/
def determineContext (profile : String) : String × String × Option String :=
  if profile = "dev" then
    (".xyz.", "HOSTED_ZONEID", none)
  else if profile = "staging" then
    (".yyz.", "HOSTED_ZONEID", none)
  else if profile = "production" then
    (".zzz.", "HOSTED_ZONEID", none)
  else
    ("", "", some "Invalid AWS profile")

/-- Function `isValidRecord` (main.go 92-107): the expression switch with its five cases, tried
in order. -/
def isValidRecord (recordName domain : String) : Bool :=
  if recordName = "RECORD_NAME" ++ domain then true
  else if recordName = "RECORD_NAME" ++ domain then true
  else if recordName = "RECORD_NAME" ++ domain then true
  else if recordName = "RECORD_NAME" ++ domain then true
  else if recordName = "RECORD_NAME" ++ domain then true
  else false

/-- Function `constructInput` (main.go 110-118). -/
def constructInput (hostedZoneID startRecID startRecName startRecType : Option String) :
    ListResourceRecordSetsInput :=
  { HostedZoneId := hostedZoneID
    MaxItems := none
    StartRecordIdentifier := startRecID
    StartRecordName := startRecName
    StartRecordType := startRecType }

/-- The loop of `filterRecords` (main.go 123-127) from the current index on, `result`
being the slice built so far. `*Type` is dereferenced first and `*Name` only when the
type is `"A"` (the `&&` short-circuits); a nil one is a panic (`none`). -/
def filterRecordsLoop (domain : String) :
    List ResourceRecordSet → List ResourceRecordSet → Option (List ResourceRecordSet)
  | [], result => some result
  | r :: rest, result =>
    match r.Type_ with
    | none => none
    | some t =>
      if t = "A" then
        match r.Name with
        | none => none
        | some n =>
          if isValidRecord n domain then filterRecordsLoop domain rest (result ++ [r])
          else filterRecordsLoop domain rest result
      else filterRecordsLoop domain rest result

/-- Function `filterRecords` (main.go 121-129). -/
def filterRecords (resourceRecordSet : List ResourceRecordSet) (domain : String) :
    Option (List ResourceRecordSet) :=
  filterRecordsLoop domain resourceRecordSet []

/-- The loop of `makeChanges` (main.go 134-168) from the current index on, `changes`
being the slice built so far. Both arms of the mode test read
`*records[i].AliasTarget.DNSName`, so a record without alias target, or whose alias
target has no DNS name, is a panic (`none`). -/
def makeChangesLoop (domain mode : String) :
    List ResourceRecordSet → List Change → Option (List Change)
  | [], changes => some changes
  | r :: rest, changes =>
    match r.AliasTarget with
    | none => none
    | some target =>
      match target.DNSName with
      | none => none
      | some dnsName =>
        let weight : Int :=
          if mode = "on" then
            if dnsName = "RECORD_NAME" ++ domain then 100 else 0
          else
            if regexpMatchString "REGEX" dnsName then 100 else 0
        let change : Change :=
          { Action := some "UPSERT"
            ResourceRecordSet := some
              { AliasTarget := some
                  { DNSName := target.DNSName
                    EvaluateTargetHealth := target.EvaluateTargetHealth
                    HostedZoneId := target.HostedZoneId }
                Failover := none
                GeoLocation := none
                HealthCheckId := none
                MultiValueAnswer := none
                Name := r.Name
                Region := none
                ResourceRecords := []
                SetIdentifier := r.SetIdentifier
                TTL := none
                TrafficPolicyInstanceId := none
                Type_ := r.Type_
                Weight := some weight } }
        makeChangesLoop domain mode rest (changes ++ [change])

/-- Function `makeChanges` (main.go 132-170). -/
def makeChanges (records : List ResourceRecordSet) (domain mode : String) :
    Option (List Change) :=
  makeChangesLoop domain mode records []

/-- The row loop of `printRecords` (main.go 51-56): the rows handed to the table
writer, or `none` when `*Name`, `*AliasTarget.DNSName` or `*Weight` is a nil
dereference. -/
def printRecordsRows : List ResourceRecordSet → Option (List (List String))
  | [] => some []
  | r :: rest =>
    match r.Name with
    | none => none
    | some name =>
      match r.AliasTarget with
      | none => none
      | some target =>
        match target.DNSName with
        | none => none
        | some dnsName =>
          match r.Weight with
          | none => none
          | some weight =>
            match printRecordsRows rest with
            | none => none
            | some rows => some ([name, dnsName, formatInt weight] :: rows)

/-- Function `printRecords` (main.go 44-66): the table rows it renders (the rendering itself is
the table writer's), `none` for a panic. -/
def printRecords (records : List ResourceRecordSet) (_environment : String) :
    Option (List (List String)) :=
  printRecordsRows records

/-- The row loop of `printChanges` (main.go 27-32). -/
def printChangesRows : List Change → Option (List (List String))
  | [] => some []
  | c :: rest =>
    match c.ResourceRecordSet with
    | none => none
    | some rrs =>
      match rrs.Name with
      | none => none
      | some name =>
        match rrs.AliasTarget with
        | none => none
        | some target =>
          match target.DNSName with
          | none => none
          | some dnsName =>
            match rrs.Weight with
            | none => none
            | some weight =>
              match printChangesRows rest with
              | none => none
              | some rows => some ([name, dnsName, formatInt weight] :: rows)

/-- Function `printChanges` (main.go 20-41). -/
def printChanges (changes : List Change) (_environment : String) :
    Option (List (List String)) :=
  printChangesRows changes

/-! ## `main` -/

/-- How the listing loop of `main` ends. -/
inductive FetchOutcome where
  /-- the loop was left with `isTruncated = false`; the accumulated `validRecords` -/
  | done (validRecords : List ResourceRecordSet)
  /-- case `responseErr != nil`: the error is printed and the program exits with status 1 -/
  | failed (err : AwsError)
  /-- a nil dereference (in `filterRecords` or of `response.IsTruncated`) -/
  | panicked
  /-- a request is out and the provider has not answered it -/
  | pending
deriving DecidableEq, Repr

/-- The listing loop of `main` (main.go 200-220), entered with `isTruncated = true`,
the request `input` about to be sent and `validRecords` accumulated so far. The
provider is the list of its successive answers. Returns the requests sent, in order,
and how the loop ended. -/
def fetchLoop (hostedZoneID domain : String) :
    List (Except AwsError ListResourceRecordSetsOutput) → ListResourceRecordSetsInput →
    List ResourceRecordSet → List ListResourceRecordSetsInput × FetchOutcome
  | [], input, _ => ([input], FetchOutcome.pending)
  | Except.error responseErr :: _, input, _ => ([input], FetchOutcome.failed responseErr)
  | Except.ok response :: rest, input, validRecords =>
    match filterRecords response.ResourceRecordSets domain with
    | none => ([input], FetchOutcome.panicked)
    | some filteredRecords =>
      let validRecords1 :=
        if filteredRecords.length > 0 then validRecords ++ filteredRecords else validRecords
      let next := constructInput (some hostedZoneID) response.NextRecordIdentifier
        response.NextRecordName response.NextRecordType
      match response.IsTruncated with
      | none => ([input], FetchOutcome.panicked)
      | some true =>
        let r := fetchLoop hostedZoneID domain rest next validRecords1
        (input :: r.1, r.2)
      | some false => ([input], FetchOutcome.done validRecords1)

/-- What `main` is run against: the parsed flags and the answers of the outside world. -/
structure World where
  /-- value of the `-mode` flag after `flag.Parse` -/
  mode : String
  /-- value of the `-profile` flag after `flag.Parse` -/
  profile : String
  /-- error of `session.NewSessionWithOptions`, if any -/
  sessionError : Option String
  /-- successive results of `svc.ListResourceRecordSets` -/
  listResponses : List (Except AwsError ListResourceRecordSetsOutput)
  /-- what standard input holds when the confirmation is read: the line typed, with or
  without its newline and whatever follows -/
  stdin : String
  /-- the error the provider answers a change request with, if any -/
  changeError : Option AwsError

/-- How a run of the program ends. -/
inductive Exit where
  /-- exit through `os.Exit code`, or return from `main` (status 0) -/
  | code (status : Nat)
  /-- run-time panic (nil dereference) -/
  | panic
  /-- blocked on a listing request that is never answered -/
  | pending
deriving DecidableEq, Repr

/-- What a run does to the provider, and how it ends. -/
structure Run where
  /-- the calls of `svc.ListResourceRecordSets`, in order -/
  listRequests : List ListResourceRecordSetsInput
  /-- the calls of `svc.ChangeResourceRecordSets`, in order -/
  changeCalls : List ChangeResourceRecordSetsInput
  /-- the change requests sent to the provider, in order -/
  changeRequests : List ChangeResourceRecordSetsInput
  exit : Exit
deriving DecidableEq, Repr

/-- Function `main` (main.go 172-251). -/
def main (w : World) : Run :=
  match determineContext w.profile with
  | (_, _, some _) => ⟨[], [], [], Exit.code 1⟩
  | (domain, hostedZoneID, none) =>
    match w.sessionError with
    | some _ => ⟨[], [], [], Exit.code 1⟩
    | none =>
      match fetchLoop hostedZoneID domain w.listResponses
          (constructInput (some hostedZoneID) none none none) [] with
      | (reqs, FetchOutcome.failed _) => ⟨reqs, [], [], Exit.code 1⟩
      | (reqs, FetchOutcome.panicked) => ⟨reqs, [], [], Exit.panic⟩
      | (reqs, FetchOutcome.pending) => ⟨reqs, [], [], Exit.pending⟩
      | (reqs, FetchOutcome.done validRecords) =>
        match printRecords validRecords w.profile with
        | none => ⟨reqs, [], [], Exit.panic⟩
        | some _ =>
          let prompt := scanln w.stdin
          if prompt ≠ "yes" then ⟨reqs, [], [], Exit.code 0⟩
          else
            match makeChanges validRecords domain w.mode with
            | none => ⟨reqs, [], [], Exit.panic⟩
            | some changes =>
              let changeResourceRecordSetsInput : ChangeResourceRecordSetsInput :=
                { ChangeBatch := some { Changes := changes, Comment := none }
                  HostedZoneId := some hostedZoneID }
              match changeResourceRecordSets w.changeError changeResourceRecordSetsInput with
              | (sent, some _) => ⟨reqs, [changeResourceRecordSetsInput], sent, Exit.code 1⟩
              | (sent, none) =>
                match printChanges changes w.profile with
                | none => ⟨reqs, [changeResourceRecordSetsInput], sent, Exit.panic⟩
                | some _ => ⟨reqs, [changeResourceRecordSetsInput], sent, Exit.code 0⟩

/-! ## Specification-side definitions -/

/-- The filter predicate in the specification's words: the record type is `"A"` and the
record name is accepted by `isValidRecord`. -/
def retained (domain : String) (r : ResourceRecordSet) : Bool :=
  decide (r.Type_ = some "A") &&
    (match r.Name with
     | some n => isValidRecord n domain
     | none => false)

/-- The fields `filterRecords` dereferences on `r` are there: the type, and the name
when the type is `"A"`. -/
def readable (r : ResourceRecordSet) : Bool :=
  match r.Type_ with
  | none => false
  | some t => if t = "A" then r.Name.isSome else true

/-- The confirmation line: what standard input holds up to its first newline. -/
def firstLine (stdin : String) : String :=
  String.mk (stdin.toList.takeWhile (fun c => c != newline))

/-- The alias target's DNS name, when the record has an alias target with one. -/
def aliasDNSName (r : ResourceRecordSet) : Option String :=
  match r.AliasTarget with
  | none => none
  | some target => target.DNSName

/-- The weight `makeChanges` computes for a record whose alias DNS name is `dnsName`
(main.go 137-151). -/
def plannedWeight (domain mode dnsName : String) : Int :=
  if mode = "on" then
    if dnsName = "RECORD_NAME" ++ domain then 100 else 0
  else
    if regexpMatchString "REGEX" dnsName then 100 else 0

/-- The change `makeChanges` builds for a record that has an alias target with a DNS
name (main.go 153-166). -/
def plannedChange (domain mode : String) (r : ResourceRecordSet) : Change :=
  { Action := some "UPSERT"
    ResourceRecordSet := some
      { AliasTarget := r.AliasTarget
        Failover := none
        GeoLocation := none
        HealthCheckId := none
        MultiValueAnswer := none
        Name := r.Name
        Region := none
        ResourceRecords := []
        SetIdentifier := r.SetIdentifier
        TTL := none
        TrafficPolicyInstanceId := none
        Type_ := r.Type_
        Weight := some (plannedWeight domain mode ((aliasDNSName r).getD "")) } }

/-- The request that follows the response `p`: built from its three cursor fields and
the zone id (main.go 216). -/
def nextInput (hostedZoneID : String) (p : ListResourceRecordSetsOutput) :
    ListResourceRecordSetsInput :=
  constructInput (some hostedZoneID) p.NextRecordIdentifier p.NextRecordName p.NextRecordType

/-- All records of a list of pages, in page order. -/
def pageRecords (pages : List ListResourceRecordSetsOutput) : List ResourceRecordSet :=
  pages.flatMap (fun p => p.ResourceRecordSets)

/-! ## Sample data for concrete instances -/

/-- A weighted alias record with the given name, type, alias DNS name and weight. -/
def sampleRecord (name type dns : String) (weight : Int) : ResourceRecordSet :=
  { AliasTarget := some
      { DNSName := some dns, EvaluateTargetHealth := some false, HostedZoneId := some "Z1" }
    Failover := none
    GeoLocation := none
    HealthCheckId := none
    MultiValueAnswer := none
    Name := some name
    Region := none
    ResourceRecords := []
    SetIdentifier := some "blue"
    TTL := none
    TrafficPolicyInstanceId := none
    Type_ := some type
    Weight := some weight }

/-- Three records of the "dev" zone: an allow-listed alias, a CNAME of the same name and
an A record of another name. -/
def sampleRecords : List ResourceRecordSet :=
  [ sampleRecord "RECORD_NAME.xyz." "A" "RECORD_NAME.xyz." 0,
    sampleRecord "RECORD_NAME.xyz." "CNAME" "lb.example." 5,
    sampleRecord "other.xyz." "A" "xREGEXy.example." 7 ]

/-- A page of a listing. -/
def samplePage (records : List ResourceRecordSet) (truncated : Bool) (next : Option String) :
    ListResourceRecordSetsOutput :=
  { IsTruncated := some truncated
    MaxItems := some "100"
    NextRecordIdentifier := none
    NextRecordName := next
    NextRecordType := next.map (fun _ => "A")
    ResourceRecordSets := records }

/-- A two-page listing of the sample records: a truncated page, then the final page. -/
def samplePre : List ListResourceRecordSetsOutput :=
  [samplePage sampleRecords true (some "next.xyz.")]

/-- The final page of the sample listing. -/
def sampleLast : ListResourceRecordSetsOutput :=
  samplePage [sampleRecord "RECORD_NAME.xyz." "A" "k8s.example." 100] false none

/-- The allow-listed sample alias, with a health check attached. -/
def healthCheckedRecord : ResourceRecordSet :=
  { sampleRecord "RECORD_NAME.xyz." "A" "RECORD_NAME.xyz." 0 with
    HealthCheckId := some "hc-1" }

/-- An allow-listed A record that is neither an alias nor weighted: a plain address
record with a TTL. -/
def plainRecord : ResourceRecordSet :=
  { AliasTarget := none
    Failover := none
    GeoLocation := none
    HealthCheckId := none
    MultiValueAnswer := none
    Name := some "RECORD_NAME.xyz."
    Region := none
    ResourceRecords := [{ Value := some "192.0.2.1" }]
    SetIdentifier := none
    TTL := some 300
    TrafficPolicyInstanceId := none
    Type_ := some "A"
    Weight := none }

/-- A run against the sample listing. -/
def sampleWorld (mode stdin : String) (changeError : Option AwsError) : World :=
  { mode := mode
    profile := "dev"
    sessionError := none
    listResponses := samplePre.map Except.ok ++ [Except.ok sampleLast]
    stdin := stdin
    changeError := changeError }

/-- A run against a zone whose allow-listed A record is the plain address record, with
the confirmation declined. -/
def plainWorld : World :=
  { mode := "on"
    profile := "dev"
    sessionError := none
    listResponses := [Except.ok (samplePage [plainRecord] false none)]
    stdin := "no"
    changeError := none }

/-- A run against a zone that holds no allow-listed A record, confirmed with "yes"; the
provider would accept a change request. -/
def emptyWorld : World :=
  { mode := "on"
    profile := "dev"
    sessionError := none
    listResponses :=
      [Except.ok (samplePage [sampleRecord "other.xyz." "A" "lb.example." 1] false none)]
    stdin := "yes"
    changeError := none }

/-! ## Theorems -/

theorem isValidRecord_iff (n domain : String) :
    isValidRecord n domain = true ↔ n = "RECORD_NAME" ++ domain := by
  unfold isValidRecord
  by_cases h : n = "RECORD_NAME" ++ domain <;> simp [h]

theorem retained_iff (domain : String) (r : ResourceRecordSet) :
    retained domain r = true ↔
      r.Type_ = some "A" ∧ r.Name = some ("RECORD_NAME" ++ domain) := by
  unfold retained
  cases hn : r.Name with
  | none => simp
  | some n => simp [isValidRecord_iff]

theorem readable_of_present (r : ResourceRecordSet)
    (h : r.Name ≠ none ∧ r.Type_ ≠ none) : readable r = true := by
  unfold readable
  obtain ⟨hn, ht⟩ := h
  cases hT : r.Type_ with
  | none => exact absurd hT ht
  | some t =>
    cases hN : r.Name with
    | none => exact absurd hN hn
    | some n => simp

theorem readable_of_retained (domain : String) (r : ResourceRecordSet)
    (h : retained domain r = true) : readable r = true := by
  obtain ⟨ht, hn⟩ := (retained_iff domain r).1 h
  simp [readable, ht, hn]

/-- The loop of `filterRecords`, in closed form: it panics exactly when some record is
not readable, and otherwise appends the retained records to what it was given. -/
theorem filterRecordsLoop_eq (domain : String) (rs : List ResourceRecordSet) :
    ∀ acc : List ResourceRecordSet,
      filterRecordsLoop domain rs acc =
        if rs.all readable = true then some (acc ++ rs.filter (retained domain)) else none := by
  induction rs with
  | nil => intro acc; simp [filterRecordsLoop]
  | cons r rest ih =>
    intro acc
    unfold filterRecordsLoop
    cases hT : r.Type_ with
    | none => simp [readable, hT]
    | some t =>
      by_cases hA : t = "A"
      · subst hA
        cases hN : r.Name with
        | none => simp [readable, hT, hN]
        | some n =>
          by_cases hv : isValidRecord n domain = true
          · simp [readable, retained, hT, hN, hv, ih]
          · simp [readable, retained, hT, hN, hv, ih]
      · simp [readable, retained, hT, hA, ih]

theorem filterRecords_eq (rs : List ResourceRecordSet) (domain : String) :
    filterRecords rs domain =
      if rs.all readable = true then some (rs.filter (retained domain)) else none := by
  unfold filterRecords
  rw [filterRecordsLoop_eq]
  simp

theorem filterRecords_of_present (rs : List ResourceRecordSet) (domain : String)
    (hpresent : ∀ r ∈ rs, r.Name ≠ none ∧ r.Type_ ≠ none) :
    filterRecords rs domain = some (rs.filter (retained domain)) := by
  have hall : rs.all readable = true := by
    rw [List.all_eq_true]
    intro r hr
    exact readable_of_present r (hpresent r hr)
  rw [filterRecords_eq, if_pos hall]

/-- C1: `determineContext` returns the fixed (domain, zone id) pair with a nil error
for the profiles "dev", "staging" and "production", and for every other string (among
them "", "invalid", "Dev" and "dev ") the error "Invalid AWS profile"; the error is
returned if and only if the profile is not one of the three names. -/
theorem determineContext_spec (profile : String) :
    determineContext "dev" = (".xyz.", "HOSTED_ZONEID", none) ∧
    determineContext "staging" = (".yyz.", "HOSTED_ZONEID", none) ∧
    determineContext "production" = (".zzz.", "HOSTED_ZONEID", none) ∧
    ((determineContext profile).2.2 = some "Invalid AWS profile" ↔
      (profile ≠ "dev" ∧ profile ≠ "staging" ∧ profile ≠ "production")) ∧
    ((determineContext profile).2.2 = none ↔
      (profile = "dev" ∨ profile = "staging" ∨ profile = "production")) ∧
    (determineContext "").2.2 = some "Invalid AWS profile" ∧
    (determineContext "invalid").2.2 = some "Invalid AWS profile" ∧
    (determineContext "Dev").2.2 = some "Invalid AWS profile" ∧
    (determineContext "dev ").2.2 = some "Invalid AWS profile" := by
  refine ⟨by decide, by decide, by decide, ?_, ?_, by decide, by decide, by decide, by decide⟩
  · unfold determineContext
    by_cases h1 : profile = "dev"
    · simp [h1]
    · by_cases h2 : profile = "staging"
      · simp [h2]
      · by_cases h3 : profile = "production"
        · simp [h3]
        · simp [h1, h2, h3]
  · unfold determineContext
    by_cases h1 : profile = "dev"
    · simp [h1]
    · by_cases h2 : profile = "staging"
      · simp [h2]
      · by_cases h3 : profile = "production"
        · simp [h3]
        · simp [h1, h2, h3]

/-- C2: on a list of records whose name and type are present, `filterRecords` returns
exactly the sub-list (original order, multiplicities kept) of the records whose type is
"A" and whose name `isValidRecord` accepts, that is, whose name is the allow-listed name
followed by the domain; a record of the input is in the result if and only if it is such
a record. -/
theorem filterRecords_spec (rs : List ResourceRecordSet) (domain : String)
    (hpresent : ∀ r ∈ rs, r.Name ≠ none ∧ r.Type_ ≠ none) :
    filterRecords rs domain = some (rs.filter (retained domain)) ∧
    (∀ r, retained domain r = true ↔
      (r.Type_ = some "A" ∧ ∃ n, r.Name = some n ∧ isValidRecord n domain = true)) ∧
    (∀ n, isValidRecord n domain = true ↔ n = "RECORD_NAME" ++ domain) ∧
    (∀ out, filterRecords rs domain = some out →
      out.Sublist rs ∧
      (∀ r, r ∈ out ↔
        (r ∈ rs ∧ r.Type_ = some "A" ∧ r.Name = some ("RECORD_NAME" ++ domain))) ∧
      (∀ r, r.Type_ = some "A" → r.Name = some ("RECORD_NAME" ++ domain) →
        out.count r = rs.count r)) := by
  have heq : filterRecords rs domain = some (rs.filter (retained domain)) :=
    filterRecords_of_present rs domain hpresent
  refine ⟨heq, ?_, fun n => isValidRecord_iff n domain, ?_⟩
  · intro r
    rw [retained_iff]
    constructor
    · rintro ⟨ht, hn⟩
      exact ⟨ht, _, hn, (isValidRecord_iff _ _).2 rfl⟩
    · rintro ⟨ht, n, hn, hv⟩
      exact ⟨ht, by rw [hn, (isValidRecord_iff _ _).1 hv]⟩
  · intro out hout
    rw [heq] at hout
    cases hout
    refine ⟨List.filter_sublist rs, ?_, ?_⟩
    · intro r
      rw [List.mem_filter, retained_iff]
    · intro r ht hn
      rw [List.count_filter]
      exact (retained_iff domain r).2 ⟨ht, hn⟩

/-- Instance of `filterRecords_spec` on the three sample records. -/
theorem filterRecords_spec_witness :
    (∀ r ∈ sampleRecords, r.Name ≠ none ∧ r.Type_ ≠ none) ∧
    filterRecords sampleRecords ".xyz." = some (sampleRecords.filter (retained ".xyz.")) :=
  ⟨by decide, (filterRecords_spec sampleRecords ".xyz." (by decide)).1⟩

theorem filterRecords_append (a b : List ResourceRecordSet) (domain : String) :
    filterRecords (a ++ b) domain =
      (filterRecords a domain).bind
        (fun x => (filterRecords b domain).map (fun y => x ++ y)) := by
  simp only [filterRecords_eq, List.all_append, List.filter_append]
  by_cases ha : a.all readable = true <;> by_cases hb : b.all readable = true <;>
    simp [ha, hb]

theorem filterRecords_isSome_iff (rs : List ResourceRecordSet) (domain : String) :
    filterRecords rs domain ≠ none ↔ rs.all readable = true := by
  rw [filterRecords_eq]
  by_cases h : rs.all readable = true <;> simp [h]

theorem filterRecords_some (rs out : List ResourceRecordSet) (domain : String)
    (h : filterRecords rs domain = some out) :
    rs.all readable = true ∧ out = rs.filter (retained domain) := by
  rw [filterRecords_eq] at h
  by_cases hr : rs.all readable = true
  · rw [if_pos hr] at h
    exact ⟨hr, (Option.some.inj h).symm⟩
  · rw [if_neg hr] at h
    cases h

theorem append_filtered_if (acc filtered : List ResourceRecordSet) :
    (if filtered.length > 0 then acc ++ filtered else acc) = acc ++ filtered := by
  cases filtered with
  | nil => simp
  | cons x xs => simp

/-- One turn of the listing loop on a readable, truncated page. -/
theorem fetchLoop_truncated (hostedZoneID domain : String)
    (p : ListResourceRecordSetsOutput)
    (rest : List (Except AwsError ListResourceRecordSetsOutput))
    (input : ListResourceRecordSetsInput) (acc : List ResourceRecordSet)
    (ht : p.IsTruncated = some true)
    (hr : p.ResourceRecordSets.all readable = true) :
    fetchLoop hostedZoneID domain (Except.ok p :: rest) input acc =
      (input :: (fetchLoop hostedZoneID domain rest (nextInput hostedZoneID p)
          (acc ++ p.ResourceRecordSets.filter (retained domain))).1,
        (fetchLoop hostedZoneID domain rest (nextInput hostedZoneID p)
          (acc ++ p.ResourceRecordSets.filter (retained domain))).2) := by
  rw [fetchLoop]
  simp only [filterRecords_eq, hr, if_true, ht, append_filtered_if, nextInput]

/-- The last turn of the listing loop, on a readable page that is not truncated. -/
theorem fetchLoop_final (hostedZoneID domain : String)
    (p : ListResourceRecordSetsOutput)
    (rest : List (Except AwsError ListResourceRecordSetsOutput))
    (input : ListResourceRecordSetsInput) (acc : List ResourceRecordSet)
    (ht : p.IsTruncated = some false)
    (hr : p.ResourceRecordSets.all readable = true) :
    fetchLoop hostedZoneID domain (Except.ok p :: rest) input acc =
      ([input], FetchOutcome.done (acc ++ p.ResourceRecordSets.filter (retained domain))) := by
  rw [fetchLoop]
  simp only [filterRecords_eq, hr, if_true, ht, append_filtered_if]

/-- The listing loop on a script whose first `pre.length` answers are truncated pages
and whose next answer is a final page, all of them readable: one request per fetched
page and the retained records of all pages appended to the accumulator. -/
theorem fetchLoop_pages (hostedZoneID domain : String)
    (last : ListResourceRecordSetsOutput)
    (rest : List (Except AwsError ListResourceRecordSetsOutput))
    (hlast : last.IsTruncated = some false)
    (hrl : last.ResourceRecordSets.all readable = true)
    (pre : List ListResourceRecordSetsOutput) :
    ∀ (input : ListResourceRecordSetsInput) (acc : List ResourceRecordSet),
      (∀ p ∈ pre, p.IsTruncated = some true) →
      (∀ p ∈ pre, p.ResourceRecordSets.all readable = true) →
      fetchLoop hostedZoneID domain (pre.map Except.ok ++ Except.ok last :: rest) input acc =
        (input :: pre.map (nextInput hostedZoneID),
          FetchOutcome.done
            (acc ++ (pageRecords (pre ++ [last])).filter (retained domain))) := by
  induction pre with
  | nil =>
    intro input acc _ _
    rw [List.map_nil, List.nil_append, fetchLoop_final _ _ _ _ _ _ hlast hrl]
    simp [pageRecords]
  | cons p ps ih =>
    intro input acc ht hr
    have htp : p.IsTruncated = some true := ht p (List.mem_cons_self _ _)
    have hrp : p.ResourceRecordSets.all readable = true := hr p (List.mem_cons_self _ _)
    have ih1 := ih (nextInput hostedZoneID p)
      (acc ++ p.ResourceRecordSets.filter (retained domain))
      (fun q hq => ht q (List.mem_cons_of_mem _ hq))
      (fun q hq => hr q (List.mem_cons_of_mem _ hq))
    rw [List.map_cons, List.cons_append, fetchLoop_truncated _ _ _ _ _ _ htp hrp, ih1]
    simp [pageRecords, List.append_assoc]

theorem filterRecords_mapM (domain : String) (pages : List (List ResourceRecordSet)) :
    (pages.mapM (fun p => filterRecords p domain)).map List.flatten =
      filterRecords pages.flatten domain := by
  induction pages with
  | nil => rfl
  | cons p ps ih =>
    rw [List.flatten_cons, filterRecords_append, ← ih, List.mapM_cons]
    cases hp : filterRecords p domain with
    | none => simp
    | some x =>
      cases hps : List.mapM (fun p => filterRecords p domain) ps with
      | none => simp
      | some xs => simp

/-- C10: filtering page by page is filtering everything at once. `filterRecords` of the
empty list is empty; `filterRecords (a ++ b)` is `filterRecords a ++ filterRecords b`
(and panics exactly when one of the two does); over any sequence of pages the
concatenation of the filtered pages is the filter of the concatenated pages;
`filterRecords` is idempotent; and the list the listing loop of `main` accumulates over
a paged listing is the filter of all the listed records, however they are paged. -/
theorem filterRecords_paging (domain : String) :
    filterRecords [] domain = some [] ∧
    (∀ a b : List ResourceRecordSet,
      filterRecords (a ++ b) domain =
        (filterRecords a domain).bind
          (fun x => (filterRecords b domain).map (fun y => x ++ y))) ∧
    (∀ pages : List (List ResourceRecordSet),
      (pages.mapM (fun p => filterRecords p domain)).map List.flatten =
        filterRecords pages.flatten domain) ∧
    (∀ rs out : List ResourceRecordSet,
      filterRecords rs domain = some out → filterRecords out domain = some out) ∧
    (∀ (hostedZoneID : String) (pre : List ListResourceRecordSetsOutput)
        (last : ListResourceRecordSetsOutput)
        (rest : List (Except AwsError ListResourceRecordSetsOutput))
        (valid : List ResourceRecordSet),
      (∀ p ∈ pre, p.IsTruncated = some true) →
      last.IsTruncated = some false →
      filterRecords (pageRecords (pre ++ [last])) domain = some valid →
      (fetchLoop hostedZoneID domain (pre.map Except.ok ++ Except.ok last :: rest)
          (constructInput (some hostedZoneID) none none none) []).2 =
        FetchOutcome.done valid) := by
  refine ⟨rfl, fun a b => filterRecords_append a b domain, filterRecords_mapM domain, ?_, ?_⟩
  · intro rs out h
    obtain ⟨_, hout⟩ := filterRecords_some rs out domain h
    rw [filterRecords_eq]
    have hall : out.all readable = true := by
      rw [List.all_eq_true]
      intro r hr
      rw [hout] at hr
      exact readable_of_retained domain r (List.mem_filter.1 hr).2
    rw [if_pos hall, hout, List.filter_filter]
    simp
  · intro hostedZoneID pre last rest valid ht hl hv
    obtain ⟨hall, hvalid⟩ := filterRecords_some _ _ domain hv
    have hall2 : ∀ p ∈ pre ++ [last], p.ResourceRecordSets.all readable = true := by
      intro p hp
      rw [List.all_eq_true] at hall ⊢
      intro r hr
      apply hall
      unfold pageRecords
      rw [List.mem_flatMap]
      exact ⟨p, hp, hr⟩
    rw [fetchLoop_pages hostedZoneID domain last rest hl
      (hall2 last (by simp)) pre _ _ ht (fun p hp => hall2 p (by simp [hp]))]
    simp [hvalid]

/-- Instance of `filterRecords_paging`: idempotence on the sample records, and the
listing loop on the two sample pages. -/
theorem filterRecords_paging_witness :
    filterRecords sampleRecords ".xyz." =
      some [sampleRecord "RECORD_NAME.xyz." "A" "RECORD_NAME.xyz." 0] ∧
    filterRecords [sampleRecord "RECORD_NAME.xyz." "A" "RECORD_NAME.xyz." 0] ".xyz." =
      some [sampleRecord "RECORD_NAME.xyz." "A" "RECORD_NAME.xyz." 0] ∧
    (fetchLoop "HOSTED_ZONEID" ".xyz."
        (samplePre.map Except.ok ++ Except.ok sampleLast :: [])
        (constructInput (some "HOSTED_ZONEID") none none none) []).2 =
      FetchOutcome.done
        [sampleRecord "RECORD_NAME.xyz." "A" "RECORD_NAME.xyz." 0,
         sampleRecord "RECORD_NAME.xyz." "A" "k8s.example." 100] :=
  ⟨by decide,
   (filterRecords_paging ".xyz.").2.2.2.1 sampleRecords _ (by decide),
   (filterRecords_paging ".xyz.").2.2.2.2 "HOSTED_ZONEID" samplePre sampleLast [] _
     (by decide) (by decide) (by decide)⟩

/-- The body of `main` from the point where the listing loop has been left normally. -/
theorem main_after_fetch (w : World) (domain hostedZoneID : String)
    (reqs : List ListResourceRecordSetsInput) (valid : List ResourceRecordSet)
    (hc : determineContext w.profile = (domain, hostedZoneID, none))
    (hs : w.sessionError = none)
    (hf : fetchLoop hostedZoneID domain w.listResponses
        (constructInput (some hostedZoneID) none none none) [] =
          (reqs, FetchOutcome.done valid)) :
    main w =
      match printRecords valid w.profile with
      | none => ⟨reqs, [], [], Exit.panic⟩
      | some _ =>
        if scanln w.stdin ≠ "yes" then ⟨reqs, [], [], Exit.code 0⟩
        else
          match makeChanges valid domain w.mode with
          | none => ⟨reqs, [], [], Exit.panic⟩
          | some changes =>
            match changeResourceRecordSets w.changeError
                { ChangeBatch := some { Changes := changes, Comment := none }
                  HostedZoneId := some hostedZoneID } with
            | (sent, some _) =>
              ⟨reqs, [{ ChangeBatch := some { Changes := changes, Comment := none }
                        HostedZoneId := some hostedZoneID }], sent, Exit.code 1⟩
            | (sent, none) =>
              match printChanges changes w.profile with
              | none =>
                ⟨reqs, [{ ChangeBatch := some { Changes := changes, Comment := none }
                          HostedZoneId := some hostedZoneID }], sent, Exit.panic⟩
              | some _ =>
                ⟨reqs, [{ ChangeBatch := some { Changes := changes, Comment := none }
                          HostedZoneId := some hostedZoneID }], sent, Exit.code 0⟩ := by
  unfold main
  rw [hc]
  simp only [hs, hf]

/-- The listing requests of a run are those of its listing loop. -/
theorem main_listRequests (w : World) (domain hostedZoneID : String)
    (hc : determineContext w.profile = (domain, hostedZoneID, none))
    (hs : w.sessionError = none) :
    (main w).listRequests =
      (fetchLoop hostedZoneID domain w.listResponses
        (constructInput (some hostedZoneID) none none none) []).1 := by
  unfold main
  rw [hc]
  simp only [hs]
  rcases hf : fetchLoop hostedZoneID domain w.listResponses
      (constructInput (some hostedZoneID) none none none) [] with ⟨reqs, out⟩
  cases out with
  | failed e => rfl
  | panicked => rfl
  | pending => rfl
  | done valid =>
    simp only
    repeat' split
    all_goals rfl

/-- Unless `fmt.Scanln` reads the word "yes", `svc.ChangeResourceRecordSets` is not
called and nothing is sent, whatever else happens. -/
theorem main_no_change (w : World) (hp : scanln w.stdin ≠ "yes") :
    (main w).changeCalls = [] ∧ (main w).changeRequests = [] := by
  unfold main
  repeat' split
  all_goals first | exact ⟨rfl, rfl⟩ | simp [hp]

theorem forall₂_filterRecords (domain : String) (pages : List ListResourceRecordSetsOutput)
    (h : ∀ p ∈ pages, p.ResourceRecordSets.all readable = true) :
    List.Forall₂ (fun p out => filterRecords p.ResourceRecordSets domain = some out) pages
        (pages.map (fun p => p.ResourceRecordSets.filter (retained domain))) ∧
      (pages.map (fun p => p.ResourceRecordSets.filter (retained domain))).flatten =
        (pageRecords pages).filter (retained domain) := by
  induction pages with
  | nil => exact ⟨List.Forall₂.nil, rfl⟩
  | cons p ps ih =>
    obtain ⟨ih1, ih2⟩ := ih (fun q hq => h q (List.mem_cons_of_mem _ hq))
    refine ⟨List.Forall₂.cons ?_ ih1, ?_⟩
    · rw [filterRecords_eq, if_pos (h p (List.mem_cons_self _ _))]
    · rw [List.map_cons, List.flatten_cons, ih2]
      simp [pageRecords]

/-- Whatever the provider answers, the loop sends the request it was entered with
first. -/
theorem fetchLoop_head (hostedZoneID domain : String)
    (script : List (Except AwsError ListResourceRecordSetsOutput))
    (input : ListResourceRecordSetsInput) (acc : List ResourceRecordSet) :
    (fetchLoop hostedZoneID domain script input acc).1.head? = some input := by
  cases script with
  | nil => rfl
  | cons resp rest =>
    cases resp with
    | error e => rfl
    | ok response =>
      rw [fetchLoop]
      cases filterRecords response.ResourceRecordSets domain with
      | none => rfl
      | some filtered =>
        cases ht : response.IsTruncated with
        | none => simp [ht]
        | some b => cases b <;> simp [ht]

/-- C6: the pagination loop of `main`. Whatever the provider answers, at least one
listing request is made and the first one carries the zone id and no cursor. Over
successful page responses, of which the first `pre.length` are truncated and the next
one is not (whatever the provider would answer after it): there is one request per
fetched page and none after the final page; the request after a response carries the
zone id and, as its start record identifier, name and type, the `NextRecordIdentifier`,
`NextRecordName` and `NextRecordType` of that response; the loop is left with
`validRecords` equal to the concatenation, in fetch order, of `filterRecords` of each
fetched page. In `main` these are the listing requests of the run, with the zone id and
domain of `determineContext`. -/
theorem fetchLoop_spec (hostedZoneID domain : String)
    (pre : List ListResourceRecordSetsOutput) (last : ListResourceRecordSetsOutput)
    (rest : List (Except AwsError ListResourceRecordSetsOutput))
    (htrunc : ∀ p ∈ pre, p.IsTruncated = some true)
    (hlast : last.IsTruncated = some false)
    (hread : ∀ p ∈ pre ++ [last], filterRecords p.ResourceRecordSets domain ≠ none) :
    ∃ (reqs : List ListResourceRecordSetsInput) (valid : List ResourceRecordSet)
      (outs : List (List ResourceRecordSet)),
      fetchLoop hostedZoneID domain (pre.map Except.ok ++ Except.ok last :: rest)
          (constructInput (some hostedZoneID) none none none) [] =
        (reqs, FetchOutcome.done valid) ∧
      reqs =
        { HostedZoneId := some hostedZoneID
          MaxItems := none
          StartRecordIdentifier := none
          StartRecordName := none
          StartRecordType := none } ::
        pre.map (fun p =>
          { HostedZoneId := some hostedZoneID
            MaxItems := none
            StartRecordIdentifier := p.NextRecordIdentifier
            StartRecordName := p.NextRecordName
            StartRecordType := p.NextRecordType }) ∧
      reqs.length = (pre ++ [last]).length ∧
      (∀ (i : Nat) (p : ListResourceRecordSetsOutput), pre[i]? = some p →
        ∃ req : ListResourceRecordSetsInput, reqs[i + 1]? = some req ∧
          req.HostedZoneId = some hostedZoneID ∧
          req.StartRecordIdentifier = p.NextRecordIdentifier ∧
          req.StartRecordName = p.NextRecordName ∧
          req.StartRecordType = p.NextRecordType) ∧
      List.Forall₂ (fun p out => filterRecords p.ResourceRecordSets domain = some out)
        (pre ++ [last]) outs ∧
      valid = outs.flatten ∧
      (∀ script : List (Except AwsError ListResourceRecordSetsOutput),
        (fetchLoop hostedZoneID domain script
          (constructInput (some hostedZoneID) none none none) []).1.head? =
            some
              { HostedZoneId := some hostedZoneID
                MaxItems := none
                StartRecordIdentifier := none
                StartRecordName := none
                StartRecordType := none }) ∧
      (∀ w : World, determineContext w.profile = (domain, hostedZoneID, none) →
        w.sessionError = none →
        w.listResponses = pre.map Except.ok ++ Except.ok last :: rest →
        (main w).listRequests = reqs) := by
  have hall : ∀ p ∈ pre ++ [last], p.ResourceRecordSets.all readable = true :=
    fun p hp => (filterRecords_isSome_iff _ domain).1 (hread p hp)
  have hrun := fetchLoop_pages hostedZoneID domain last rest hlast (hall last (by simp)) pre
    (constructInput (some hostedZoneID) none none none) [] htrunc
    (fun p hp => hall p (by simp [hp]))
  obtain ⟨hf2, hflat⟩ := forall₂_filterRecords domain (pre ++ [last]) hall
  refine ⟨_, (pageRecords (pre ++ [last])).filter (retained domain), _, ?_, rfl, by simp,
    ?_, hf2, hflat.symm, fun script => fetchLoop_head hostedZoneID domain script _ [], ?_⟩
  · rw [hrun]
    simp [nextInput, constructInput]
  · intro i p hi
    refine ⟨{ HostedZoneId := some hostedZoneID
              MaxItems := none
              StartRecordIdentifier := p.NextRecordIdentifier
              StartRecordName := p.NextRecordName
              StartRecordType := p.NextRecordType }, ?_, rfl, rfl, rfl, rfl⟩
    rw [List.getElem?_cons_succ, List.getElem?_map, hi]
    rfl
  · intro w hc hs hl
    rw [main_listRequests w domain hostedZoneID hc hs, hl, hrun]
    simp [nextInput, constructInput]

/-- Instance of `fetchLoop_spec` on the two sample pages: two requests, the second with
the zone id and the cursor of the first page, and both retained records accumulated. -/
theorem fetchLoop_spec_witness :
    (∀ p ∈ samplePre, p.IsTruncated = some true) ∧
    sampleLast.IsTruncated = some false ∧
    (∀ p ∈ samplePre ++ [sampleLast], filterRecords p.ResourceRecordSets ".xyz." ≠ none) ∧
    ∃ (reqs : List ListResourceRecordSetsInput) (valid : List ResourceRecordSet)
      (outs : List (List ResourceRecordSet)),
      fetchLoop "HOSTED_ZONEID" ".xyz." (samplePre.map Except.ok ++ Except.ok sampleLast :: [])
          (constructInput (some "HOSTED_ZONEID") none none none) [] =
        (reqs, FetchOutcome.done valid) ∧
      reqs =
        [{ HostedZoneId := some "HOSTED_ZONEID"
           MaxItems := none
           StartRecordIdentifier := none
           StartRecordName := none
           StartRecordType := none },
         { HostedZoneId := some "HOSTED_ZONEID"
           MaxItems := none
           StartRecordIdentifier := none
           StartRecordName := some "next.xyz."
           StartRecordType := some "A" }] ∧
      List.Forall₂ (fun p out => filterRecords p.ResourceRecordSets ".xyz." = some out)
        (samplePre ++ [sampleLast]) outs ∧
      valid = outs.flatten :=
  ⟨by decide, by decide, by decide,
   (fetchLoop_spec "HOSTED_ZONEID" ".xyz." samplePre sampleLast [] (by decide) (by decide)
     (by decide)).imp
     (fun _ h => h.imp (fun _ g => g.imp (fun _ k => ⟨k.1, k.2.1, k.2.2.2.2.1, k.2.2.2.2.2.1⟩)))⟩

/-- The loop of `makeChanges`, in closed form: it panics exactly when some record has
no alias DNS name, and otherwise appends one planned change per record. -/
theorem makeChangesLoop_eq (domain mode : String) (rs : List ResourceRecordSet) :
    ∀ acc : List Change,
      makeChangesLoop domain mode rs acc =
        if rs.all (fun r => (aliasDNSName r).isSome) = true then
          some (acc ++ rs.map (plannedChange domain mode))
        else none := by
  induction rs with
  | nil => intro acc; simp [makeChangesLoop]
  | cons r rest ih =>
    intro acc
    unfold makeChangesLoop
    cases hA : r.AliasTarget with
    | none => simp [aliasDNSName, hA]
    | some target =>
      rcases target with ⟨dn, eth, hz⟩
      cases dn with
      | none => simp [aliasDNSName, hA]
      | some dns =>
        have hr : (aliasDNSName r).isSome = true := by simp [aliasDNSName, hA]
        simp only [ih]
        rw [List.all_cons, hr, Bool.true_and]
        by_cases hrest : rest.all (fun r => (aliasDNSName r).isSome) = true
        · rw [if_pos hrest, if_pos hrest]
          simp [aliasDNSName, hA, plannedChange, plannedWeight]
        · rw [if_neg hrest, if_neg hrest]

theorem makeChanges_eq (rs : List ResourceRecordSet) (domain mode : String) :
    makeChanges rs domain mode =
      if rs.all (fun r => (aliasDNSName r).isSome) = true then
        some (rs.map (plannedChange domain mode))
      else none := by
  unfold makeChanges
  rw [makeChangesLoop_eq]
  simp

theorem all_alias_of_forall (rs : List ResourceRecordSet)
    (h : ∀ r ∈ rs, aliasDNSName r ≠ none) :
    rs.all (fun r => (aliasDNSName r).isSome) = true := by
  rw [List.all_eq_true]
  intro r hr
  exact Option.isSome_iff_ne_none.2 (h r hr)

theorem makeChanges_of_alias (rs : List ResourceRecordSet) (domain mode : String)
    (h : ∀ r ∈ rs, aliasDNSName r ≠ none) :
    makeChanges rs domain mode = some (rs.map (plannedChange domain mode)) := by
  rw [makeChanges_eq, if_pos (all_alias_of_forall rs h)]

theorem makeChanges_ne_none_iff (rs : List ResourceRecordSet) (domain mode : String) :
    makeChanges rs domain mode ≠ none ↔ ∀ r ∈ rs, aliasDNSName r ≠ none := by
  rw [makeChanges_eq]
  constructor
  · intro h r hr
    by_cases hall : rs.all (fun r => (aliasDNSName r).isSome) = true
    · rw [List.all_eq_true] at hall
      exact Option.isSome_iff_ne_none.1 (hall r hr)
    · rw [if_neg hall] at h
      exact absurd rfl h
  · intro h
    rw [if_pos (all_alias_of_forall rs h)]
    exact Option.some_ne_none _

theorem printRecordsRows_ne_none_iff (rs : List ResourceRecordSet) :
    printRecordsRows rs ≠ none ↔
      ∀ r ∈ rs, r.Name ≠ none ∧ aliasDNSName r ≠ none ∧ r.Weight ≠ none := by
  induction rs with
  | nil => simp [printRecordsRows]
  | cons r rest ih =>
    unfold printRecordsRows
    cases hN : r.Name with
    | none => simp [hN]
    | some name =>
      cases hA : r.AliasTarget with
      | none => simp [aliasDNSName, hA]
      | some target =>
        rcases target with ⟨dn, eth, hz⟩
        cases dn with
        | none => simp [aliasDNSName, hA]
        | some dns =>
          cases hW : r.Weight with
          | none => simp [hW]
          | some weight =>
            cases hR : printRecordsRows rest with
            | none =>
              rw [hR] at ih
              simp only [ne_eq, not_true_eq_false, false_iff] at ih
              simp only [ne_eq, not_true_eq_false, false_iff]
              intro hall
              exact ih (fun q hq => hall q (List.mem_cons_of_mem _ hq))
            | some rows =>
              rw [hR] at ih
              have ih1 := ih.1 (Option.some_ne_none _)
              simp only [ne_eq, reduceCtorEq, not_false_eq_true, true_iff]
              intro q hq
              rcases List.mem_cons.1 hq with rfl | hq
              · simp [hN, hW, aliasDNSName, hA]
              · exact ih1 q hq

theorem printChangesRows_planned (domain mode : String) (rs : List ResourceRecordSet)
    (h : ∀ r ∈ rs, r.Name ≠ none ∧ aliasDNSName r ≠ none) :
    printChangesRows (rs.map (plannedChange domain mode)) ≠ none := by
  induction rs with
  | nil => simp [printChangesRows]
  | cons r rest ih =>
    have ih1 := ih (fun q hq => h q (List.mem_cons_of_mem _ hq))
    obtain ⟨hn, ha⟩ := h r (List.mem_cons_self _ _)
    rw [List.map_cons]
    unfold printChangesRows
    cases hN : r.Name with
    | none => exact absurd hN hn
    | some name =>
      cases hA : r.AliasTarget with
      | none => simp [aliasDNSName, hA] at ha
      | some target =>
        rcases target with ⟨dn, eth, hz⟩
        cases dn with
        | none => simp [aliasDNSName, hA] at ha
        | some dns =>
          cases hR : printChangesRows (rest.map (plannedChange domain mode)) with
          | none => exact absurd hR ih1
          | some rows => simp [plannedChange, hN, hA, hR]

theorem containsSub_iff (p s : List Char) : containsSub p s = true ↔ p <:+: s := by
  induction s with
  | nil => simp [containsSub]
  | cons c cs ih =>
    rw [containsSub, Bool.or_eq_true, List.isPrefixOf_iff_prefix, ih, List.infix_cons_iff]

theorem getElem?_planned (domain mode : String) (rs : List ResourceRecordSet) (i : Nat)
    (r : ResourceRecordSet) (h : rs[i]? = some r) :
    (rs.map (plannedChange domain mode))[i]? = some (plannedChange domain mode r) := by
  rw [List.getElem?_map, h]
  rfl

theorem mem_of_getElem?_eq (rs : List ResourceRecordSet) (i : Nat) (r : ResourceRecordSet)
    (h : rs[i]? = some r) : r ∈ rs := by
  obtain ⟨hi, rfl⟩ := List.getElem?_eq_some.1 h
  exact List.getElem_mem hi

/-- C3: `makeChanges` with mode "on", on records that each have an alias target with a
DNS name: there is one change per record, and the i-th change has weight 100 if and only
if the i-th record's alias DNS name is "RECORD_NAME" followed by the domain, and weight
0 if and only if it is not. -/
theorem makeChanges_on (rs : List ResourceRecordSet) (domain : String)
    (halias : ∀ r ∈ rs, aliasDNSName r ≠ none) :
    ∃ changes : List Change,
      makeChanges rs domain "on" = some changes ∧
      changes.length = rs.length ∧
      ∀ (i : Nat) (r : ResourceRecordSet), rs[i]? = some r →
        ∃ (c : Change) (rrs : ResourceRecordSet),
          changes[i]? = some c ∧ c.ResourceRecordSet = some rrs ∧
          (rrs.Weight = some 100 ↔ aliasDNSName r = some ("RECORD_NAME" ++ domain)) ∧
          (rrs.Weight = some 0 ↔ aliasDNSName r ≠ some ("RECORD_NAME" ++ domain)) := by
  refine ⟨_, makeChanges_of_alias rs domain "on" halias, by simp, ?_⟩
  intro i r hi
  refine ⟨_, _, getElem?_planned domain "on" rs i r hi, rfl, ?_⟩
  have hr := halias r (mem_of_getElem?_eq rs i r hi)
  cases hd : aliasDNSName r with
  | none => exact absurd hd hr
  | some dns =>
    by_cases hc : dns = "RECORD_NAME" ++ domain
    · simp [plannedWeight, hc]
    · simp [plannedWeight, hc]

/-- Instance of `makeChanges_on` on the sample records. -/
theorem makeChanges_on_witness :
    (∀ r ∈ sampleRecords, aliasDNSName r ≠ none) ∧
    ∃ changes : List Change,
      makeChanges sampleRecords ".xyz." "on" = some changes ∧
      changes.length = sampleRecords.length ∧
      ∀ (i : Nat) (r : ResourceRecordSet), sampleRecords[i]? = some r →
        ∃ (c : Change) (rrs : ResourceRecordSet),
          changes[i]? = some c ∧ c.ResourceRecordSet = some rrs ∧
          (rrs.Weight = some 100 ↔ aliasDNSName r = some ("RECORD_NAME" ++ ".xyz.")) ∧
          (rrs.Weight = some 0 ↔ aliasDNSName r ≠ some ("RECORD_NAME" ++ ".xyz.")) :=
  ⟨by decide, makeChanges_on sampleRecords ".xyz." (by decide)⟩

/-- C4: `makeChanges` with any mode other than "on", on records that each have an alias
target with a DNS name: there is one change per record, the i-th change has weight 100
if and only if the i-th record's alias DNS name matches the unanchored pattern `REGEX`
(that is, contains it), and weight 0 if and only if it does not; the domain argument has
no influence on the result. -/
theorem makeChanges_off (rs : List ResourceRecordSet) (domain mode : String)
    (hmode : mode ≠ "on")
    (halias : ∀ r ∈ rs, aliasDNSName r ≠ none) :
    ∃ changes : List Change,
      makeChanges rs domain mode = some changes ∧
      changes.length = rs.length ∧
      (∀ (i : Nat) (r : ResourceRecordSet), rs[i]? = some r →
        ∃ (c : Change) (rrs : ResourceRecordSet) (dnsName : String),
          aliasDNSName r = some dnsName ∧
          changes[i]? = some c ∧ c.ResourceRecordSet = some rrs ∧
          (rrs.Weight = some 100 ↔ regexpMatchString "REGEX" dnsName = true) ∧
          (rrs.Weight = some 0 ↔ regexpMatchString "REGEX" dnsName = false) ∧
          (regexpMatchString "REGEX" dnsName = true ↔
            "REGEX".toList <:+: dnsName.toList)) ∧
      (∀ domain2 : String, makeChanges rs domain2 mode = some changes) := by
  refine ⟨_, makeChanges_of_alias rs domain mode halias, by simp, ?_, ?_⟩
  · intro i r hi
    have hr := halias r (mem_of_getElem?_eq rs i r hi)
    cases hd : aliasDNSName r with
    | none => exact absurd hd hr
    | some dns =>
      refine ⟨_, _, dns, rfl, getElem?_planned domain mode rs i r hi, rfl, ?_, ?_, ?_⟩
      · by_cases hm : regexpMatchString "REGEX" dns = true
        · simp [plannedWeight, hmode, hd, hm]
        · simp [plannedWeight, hmode, hd, hm]
      · by_cases hm : regexpMatchString "REGEX" dns = true
        · simp [plannedWeight, hmode, hd, hm]
        · simp [plannedWeight, hmode, hd, hm]
      · exact containsSub_iff _ _
  · intro domain2
    rw [makeChanges_of_alias rs domain2 mode halias]
    congr 1
    apply List.map_congr_left
    intro r _
    simp [plannedChange, plannedWeight, hmode]

/-- Instance of `makeChanges_off` on the sample records, with mode "off". -/
theorem makeChanges_off_witness :
    ("off" : String) ≠ "on" ∧
    (∀ r ∈ sampleRecords, aliasDNSName r ≠ none) ∧
    ∃ changes : List Change,
      makeChanges sampleRecords ".xyz." "off" = some changes ∧
      changes.length = sampleRecords.length ∧
      (∀ (i : Nat) (r : ResourceRecordSet), sampleRecords[i]? = some r →
        ∃ (c : Change) (rrs : ResourceRecordSet) (dnsName : String),
          aliasDNSName r = some dnsName ∧
          changes[i]? = some c ∧ c.ResourceRecordSet = some rrs ∧
          (rrs.Weight = some 100 ↔ regexpMatchString "REGEX" dnsName = true) ∧
          (rrs.Weight = some 0 ↔ regexpMatchString "REGEX" dnsName = false) ∧
          (regexpMatchString "REGEX" dnsName = true ↔
            "REGEX".toList <:+: dnsName.toList)) ∧
      (∀ domain2 : String, makeChanges sampleRecords domain2 "off" = some changes) :=
  ⟨by decide, by decide, makeChanges_off sampleRecords ".xyz." "off" (by decide) (by decide)⟩

/-- C5, as the claim states it, fails: the health check id of a record is not carried
over into the change built for it. -/
theorem makeChanges_drops_unnamed_fields :
    (∀ r ∈ [healthCheckedRecord], aliasDNSName r ≠ none) ∧
    ∃ (c : Change) (rrs : ResourceRecordSet),
      makeChanges [healthCheckedRecord] ".xyz." "on" = some [c] ∧
      c.ResourceRecordSet = some rrs ∧
      healthCheckedRecord.HealthCheckId = some "hc-1" ∧
      rrs.HealthCheckId = none ∧
      { rrs with Weight := healthCheckedRecord.Weight } ≠ healthCheckedRecord :=
  ⟨by decide, plannedChange ".xyz." "on" healthCheckedRecord, _, by decide, rfl, rfl, rfl,
    by decide⟩

/-- C5, amended: on records that each have an alias target with a DNS name, `makeChanges`
returns one change per record; the i-th change has action "UPSERT" and wraps a record
whose name, type, set identifier and alias target (DNS name, hosted zone id,
evaluate-target-health flag) are those of the i-th input record, whose weight is 0 or
100, and whose every other field is unset. -/
theorem makeChanges_frame (rs : List ResourceRecordSet) (domain mode : String)
    (halias : ∀ r ∈ rs, aliasDNSName r ≠ none) :
    ∃ changes : List Change,
      makeChanges rs domain mode = some changes ∧
      changes.length = rs.length ∧
      ∀ (i : Nat) (r : ResourceRecordSet), rs[i]? = some r →
        ∃ (c : Change) (rrs : ResourceRecordSet) (target target1 : AliasTarget),
          changes[i]? = some c ∧ c.Action = some "UPSERT" ∧
          c.ResourceRecordSet = some rrs ∧
          rrs.Name = r.Name ∧ rrs.Type_ = r.Type_ ∧ rrs.SetIdentifier = r.SetIdentifier ∧
          r.AliasTarget = some target ∧ rrs.AliasTarget = some target1 ∧
          target1.DNSName = target.DNSName ∧
          target1.HostedZoneId = target.HostedZoneId ∧
          target1.EvaluateTargetHealth = target.EvaluateTargetHealth ∧
          (rrs.Weight = some 0 ∨ rrs.Weight = some 100) ∧
          rrs.Failover = none ∧ rrs.GeoLocation = none ∧ rrs.HealthCheckId = none ∧
          rrs.MultiValueAnswer = none ∧ rrs.Region = none ∧ rrs.ResourceRecords = [] ∧
          rrs.TTL = none ∧ rrs.TrafficPolicyInstanceId = none := by
  refine ⟨_, makeChanges_of_alias rs domain mode halias, by simp, ?_⟩
  intro i r hi
  have hr := halias r (mem_of_getElem?_eq rs i r hi)
  cases hA : r.AliasTarget with
  | none => simp [aliasDNSName, hA] at hr
  | some target =>
    refine ⟨_, _, target, target, getElem?_planned domain mode rs i r hi, rfl, rfl, rfl, rfl,
      rfl, rfl, hA, rfl, rfl, rfl, ?_, rfl, rfl, rfl, rfl, rfl, rfl, rfl, rfl⟩
    simp only [plannedWeight]
    split <;> split <;> simp

/-- Instance of `makeChanges_frame` on the health-checked sample record. -/
theorem makeChanges_frame_witness :
    (∀ r ∈ [healthCheckedRecord], aliasDNSName r ≠ none) ∧
    ∃ changes : List Change,
      makeChanges [healthCheckedRecord] ".xyz." "off" = some changes ∧
      changes.length = [healthCheckedRecord].length :=
  ⟨by decide,
   (makeChanges_frame [healthCheckedRecord] ".xyz." "off" (by decide)).imp
     (fun _ h => ⟨h.1, h.2.1⟩)⟩

/-- C9, as the claim states it, fails: a plain address record with an allow-listed name
has its name and type, is retained by `filterRecords`, has neither alias target nor
weight, and makes `printRecords` and `makeChanges` panic. -/
theorem filterRecords_keeps_plain_record :
    (∀ r ∈ [plainRecord], r.Name ≠ none ∧ r.Type_ ≠ none) ∧
    filterRecords [plainRecord] ".xyz." = some [plainRecord] ∧
    plainRecord.AliasTarget = none ∧ plainRecord.Weight = none ∧
    printRecords [plainRecord] "dev" = none ∧
    makeChanges [plainRecord] ".xyz." "on" = none ∧
    makeChanges [plainRecord] ".xyz." "off" = none :=
  ⟨by decide, by decide, rfl, rfl, by decide, by decide, by decide⟩

/-- C9, amended: on a list of records whose name and type are present `filterRecords`
returns, and it retains a record on its type and name alone. On its output
`printRecords` returns exactly when every retained record has an alias target with a DNS
name and a weight, and `makeChanges` exactly when every retained record has an alias
target with a DNS name; so both return when every allow-listed A record of the input
has an alias target with a DNS name and a weight. -/
theorem filterRecords_downstream (rs : List ResourceRecordSet) (domain : String)
    (hpresent : ∀ r ∈ rs, r.Name ≠ none ∧ r.Type_ ≠ none) :
    ∃ out : List ResourceRecordSet,
      filterRecords rs domain = some out ∧
      (∀ environment : String, printRecords out environment ≠ none ↔
        ∀ r ∈ out, aliasDNSName r ≠ none ∧ r.Weight ≠ none) ∧
      (∀ mode : String, makeChanges out domain mode ≠ none ↔
        ∀ r ∈ out, aliasDNSName r ≠ none) ∧
      ((∀ r ∈ rs, r.Type_ = some "A" → r.Name = some ("RECORD_NAME" ++ domain) →
          aliasDNSName r ≠ none ∧ r.Weight ≠ none) →
        (∀ environment : String, printRecords out environment ≠ none) ∧
        (∀ mode : String, makeChanges out domain mode ≠ none)) := by
  have hf := filterRecords_of_present rs domain hpresent
  have hname : ∀ r ∈ rs.filter (retained domain), r.Name ≠ none := by
    intro r hr
    rw [((retained_iff domain r).1 (List.mem_filter.1 hr).2).2]
    exact Option.some_ne_none _
  have hprint : ∀ environment : String,
      printRecords (rs.filter (retained domain)) environment ≠ none ↔
        ∀ r ∈ rs.filter (retained domain), aliasDNSName r ≠ none ∧ r.Weight ≠ none := by
    intro environment
    unfold printRecords
    rw [printRecordsRows_ne_none_iff]
    constructor
    · intro h r hr
      exact (h r hr).2
    · intro h r hr
      exact ⟨hname r hr, h r hr⟩
  refine ⟨_, hf, hprint, fun mode => makeChanges_ne_none_iff _ domain mode, ?_⟩
  intro hfields
  have hout : ∀ r ∈ rs.filter (retained domain), aliasDNSName r ≠ none ∧ r.Weight ≠ none := by
    intro r hr
    obtain ⟨hin, hret⟩ := List.mem_filter.1 hr
    obtain ⟨ht, hn⟩ := (retained_iff domain r).1 hret
    exact hfields r hin ht hn
  exact ⟨fun environment => (hprint environment).2 hout,
    fun mode => (makeChanges_ne_none_iff _ domain mode).2 (fun r hr => (hout r hr).1)⟩

/-- Instance of `filterRecords_downstream` on the sample records. -/
theorem filterRecords_downstream_witness :
    (∀ r ∈ sampleRecords, r.Name ≠ none ∧ r.Type_ ≠ none) ∧
    ∃ out : List ResourceRecordSet,
      filterRecords sampleRecords ".xyz." = some out ∧
      (∀ environment : String, printRecords out environment ≠ none ↔
        ∀ r ∈ out, aliasDNSName r ≠ none ∧ r.Weight ≠ none) :=
  ⟨by decide,
   (filterRecords_downstream sampleRecords ".xyz." (by decide)).imp
     (fun _ h => ⟨h.1, h.2.1⟩)⟩

/-- Whatever the provider answers, the records the listing loop is left with are
retained ones. -/
theorem fetchLoop_done_retained (hostedZoneID domain : String)
    (script : List (Except AwsError ListResourceRecordSetsOutput)) :
    ∀ (input : ListResourceRecordSetsInput) (acc : List ResourceRecordSet)
      (reqs : List ListResourceRecordSetsInput) (valid : List ResourceRecordSet),
      fetchLoop hostedZoneID domain script input acc = (reqs, FetchOutcome.done valid) →
      (∀ r ∈ acc, retained domain r = true) →
      ∀ r ∈ valid, retained domain r = true := by
  induction script with
  | nil =>
    intro input acc reqs valid h
    simp [fetchLoop] at h
  | cons resp rest ih =>
    intro input acc reqs valid h hacc
    cases resp with
    | error e => simp [fetchLoop] at h
    | ok response =>
      rw [fetchLoop] at h
      cases hf : filterRecords response.ResourceRecordSets domain with
      | none => simp [hf] at h
      | some filtered =>
        obtain ⟨_, hfil⟩ := filterRecords_some _ _ _ hf
        have hacc1 : ∀ r ∈ acc ++ filtered, retained domain r = true := by
          intro r hr
          rcases List.mem_append.1 hr with hr | hr
          · exact hacc r hr
          · rw [hfil] at hr
            exact (List.mem_filter.1 hr).2
        simp only [hf, append_filtered_if] at h
        cases ht : response.IsTruncated with
        | none => simp [ht] at h
        | some b =>
          cases b with
          | false =>
            simp only [ht, Prod.mk.injEq, FetchOutcome.done.injEq] at h
            rw [← h.2]
            exact hacc1
          | true =>
            simp only [ht, Prod.mk.injEq] at h
            exact ih _ _ _ valid (Prod.ext rfl h.2) hacc1

theorem takeWhile_eq_cons (p : Char → Bool) (l : List Char) (a : Char) (t : List Char)
    (h : l.takeWhile p = a :: t) : ∃ l1, l = a :: l1 ∧ l1.takeWhile p = t := by
  cases l with
  | nil => simp at h
  | cons b l1 =>
    rw [List.takeWhile_cons] at h
    split at h
    · injection h with h1 h2
      exact ⟨l1, by rw [h1], h2⟩
    · cases h

theorem takeWhile_eq_nil (p : Char → Bool) (l : List Char) (h : l.takeWhile p = []) :
    l = [] ∨ ∃ b l1, l = b :: l1 ∧ p b = false := by
  cases l with
  | nil => exact Or.inl rfl
  | cons b l1 =>
    rw [List.takeWhile_cons] at h
    split at h
    · cases h
    · rename_i hb
      exact Or.inr ⟨b, l1, rfl, by simpa using hb⟩

/-- When the confirmation line is exactly "yes", `fmt.Scanln` reads "yes". -/
theorem scanln_of_firstLine (stdin : String) (h : firstLine stdin = "yes") :
    scanln stdin = "yes" := by
  have hl : stdin.toList.takeWhile (fun c => c != newline) = "yes".toList := by
    have := congrArg String.toList h
    simpa [firstLine] using this
  unfold scanln
  generalize stdin.toList = l at hl
  obtain ⟨l1, rfl, h1⟩ := takeWhile_eq_cons _ l _ _ hl
  obtain ⟨l2, rfl, h2⟩ := takeWhile_eq_cons _ l1 _ _ h1
  obtain ⟨l3, rfl, h3⟩ := takeWhile_eq_cons _ l2 _ _ h2
  rcases takeWhile_eq_nil _ l3 h3 with rfl | ⟨b, l4, rfl, hb⟩
  · decide
  · have hb1 : b = newline := by simpa using hb
    subst hb1
    have e1 : isSpace (Char.ofNat 121) = false := by decide
    have e2 : isSpace (Char.ofNat 101) = false := by decide
    have e3 : isSpace (Char.ofNat 115) = false := by decide
    have e4 : isSpace newline = true := by decide
    have e5 : (Char.ofNat 121 = newline) = False := by decide
    simp [List.dropWhile_cons, List.takeWhile_cons, e1, e2, e3, e4, e5]

theorem minLen_one_iff (o : Option String) : minLen 1 o = true ↔ o ≠ some "" := by
  cases o with
  | none => simp [minLen]
  | some v =>
    rcases v with ⟨l⟩
    cases l with
    | nil => simp [minLen, String.utf8ByteSize, String.utf8ByteSize.go]
    | cons c cs =>
      have hc := Char.utf8Size_pos c
      have hne : (String.mk (c :: cs)) ≠ "" := by
        intro h
        have hd := congrArg String.data h
        simp at hd
      simp [minLen, String.utf8ByteSize, String.utf8ByteSize.go, hne]
      omega

theorem determineContext_zone (profile domain hostedZoneID : String)
    (h : determineContext profile = (domain, hostedZoneID, none)) :
    hostedZoneID = "HOSTED_ZONEID" := by
  unfold determineContext at h
  split at h
  · simp only [Prod.mk.injEq] at h
    exact h.2.1.symm
  · split at h
    · simp only [Prod.mk.injEq] at h
      exact h.2.1.symm
    · split at h
      · simp only [Prod.mk.injEq] at h
        exact h.2.1.symm
      · simp at h

/-- The conditions under which the SDK accepts the change built for a record. -/
theorem validateChange_planned (domain mode : String) (r : ResourceRecordSet) :
    validateChange (plannedChange domain mode r) = true ↔
      r.Name ≠ none ∧ r.Type_ ≠ none ∧ r.SetIdentifier ≠ some "" ∧
      ∀ t, r.AliasTarget = some t →
        t.DNSName ≠ none ∧ t.EvaluateTargetHealth ≠ none ∧ t.HostedZoneId ≠ none := by
  cases hA : r.AliasTarget with
  | none =>
    simp [validateChange, plannedChange, validateResourceRecordSet, minLen_one_iff, hA,
      Option.isSome_iff_ne_none]
    tauto
  | some t =>
    simp [validateChange, plannedChange, validateResourceRecordSet, minLen_one_iff, hA,
      validateAliasTarget, Option.isSome_iff_ne_none]
    tauto

/-- The conditions under which the SDK accepts the change request `main` builds. -/
theorem validateChangeInput_planned (domain mode : String) (valid : List ResourceRecordSet) :
    validateChangeInput
        { ChangeBatch := some { Changes := valid.map (plannedChange domain mode),
                                Comment := none }
          HostedZoneId := some "HOSTED_ZONEID" } = true ↔
      valid ≠ [] ∧ ∀ r ∈ valid, validateChange (plannedChange domain mode r) = true := by
  have hz : minLen 1 (some "HOSTED_ZONEID") = true := by decide
  simp [validateChangeInput, hz, List.all_eq_true]

/-- C7, as the claim states it, fails, in two ways. With a valid profile, a session, a
successful listing and the confirmation "no", the run on a zone whose allow-listed A
record is a plain address record does not end with exit code 0: it panics while
printing the table. And on a well-formed zone the confirmation lines "yes no" and
" yes", which differ from "yes", do not stop the run: `fmt.Scanln` reads the word "yes"
from them and a change request is sent. -/
theorem main_declined_fails :
    (firstLine plainWorld.stdin ≠ "yes" ∧
      determineContext plainWorld.profile = (".xyz.", "HOSTED_ZONEID", none) ∧
      plainWorld.sessionError = none ∧
      fetchLoop "HOSTED_ZONEID" ".xyz." plainWorld.listResponses
          (constructInput (some "HOSTED_ZONEID") none none none) [] =
        ([constructInput (some "HOSTED_ZONEID") none none none],
          FetchOutcome.done [plainRecord]) ∧
      (main plainWorld).exit = Exit.panic ∧
      (main plainWorld).exit ≠ Exit.code 0) ∧
    (firstLine "yes no" ≠ "yes" ∧ scanln "yes no" = "yes" ∧
      (main (sampleWorld "on" "yes no" none)).changeRequests.length = 1) ∧
    (firstLine " yes" ≠ "yes" ∧ scanln " yes" = "yes" ∧
      (main (sampleWorld "on" " yes" none)).changeRequests.length = 1) :=
  ⟨⟨by decide, by decide, rfl, by decide, by decide, by decide⟩,
   ⟨by decide, by decide, by decide⟩, ⟨by decide, by decide, by decide⟩⟩

/-- C7, amended: when the confirmation line is not one from which `fmt.Scanln` reads the
word "yes" (it is then different from "yes"), `svc.ChangeResourceRecordSets` is not
called and nothing is sent, whatever the mode, the profile and the provider's answers;
and when moreover the profile is valid, the session is created, the listing loop is left
with `valid` and every record of `valid` has an alias target with a DNS name and a
weight, the run ends with exit code 0. Nothing is stated about the lines other than
"yes" from which `fmt.Scanln` reads "yes". -/
theorem main_declined (w : World) (hword : scanln w.stdin ≠ "yes") :
    firstLine w.stdin ≠ "yes" ∧
    (main w).changeCalls = [] ∧
    (main w).changeRequests = [] ∧
    ∀ (domain hostedZoneID : String) (reqs : List ListResourceRecordSetsInput)
      (valid : List ResourceRecordSet),
      determineContext w.profile = (domain, hostedZoneID, none) →
      w.sessionError = none →
      fetchLoop hostedZoneID domain w.listResponses
        (constructInput (some hostedZoneID) none none none) [] =
          (reqs, FetchOutcome.done valid) →
      (∀ r ∈ valid, aliasDNSName r ≠ none ∧ r.Weight ≠ none) →
      (main w).exit = Exit.code 0 ∧ (main w).listRequests = reqs := by
  refine ⟨fun h => hword (scanln_of_firstLine w.stdin h), (main_no_change w hword).1,
    (main_no_change w hword).2, ?_⟩
  intro domain hostedZoneID reqs valid hc hs hf hfields
  have hret := fetchLoop_done_retained hostedZoneID domain w.listResponses _ [] reqs valid hf
    (by simp)
  have hprint : printRecords valid w.profile ≠ none := by
    unfold printRecords
    rw [printRecordsRows_ne_none_iff]
    intro r hr
    refine ⟨?_, hfields r hr⟩
    rw [((retained_iff domain r).1 (hret r hr)).2]
    exact Option.some_ne_none _
  rw [main_after_fetch w domain hostedZoneID reqs valid hc hs hf]
  cases hp : printRecords valid w.profile with
  | none => exact absurd hp hprint
  | some rows => simp [hword]

/-- Instance of `main_declined` on the sample listing, declined with "no". -/
theorem main_declined_witness :
    scanln (sampleWorld "on" "no" none).stdin ≠ "yes" ∧
    (main (sampleWorld "on" "no" none)).changeCalls = [] ∧
    (main (sampleWorld "on" "no" none)).changeRequests = [] ∧
    (main (sampleWorld "on" "no" none)).exit = Exit.code 0 :=
  ⟨by decide, (main_declined (sampleWorld "on" "no" none) (by decide)).2.1,
   (main_declined (sampleWorld "on" "no" none) (by decide)).2.2.1,
   ((main_declined (sampleWorld "on" "no" none) (by decide)).2.2.2 ".xyz." "HOSTED_ZONEID"
      _ _ (by decide)
      rfl
      (fetchLoop_pages "HOSTED_ZONEID" ".xyz." sampleLast [] (by decide) (by decide)
        samplePre _ [] (by decide) (by decide))
      (by decide)).1⟩

/-- C8, as the claim states it, fails: on a zone without any allow-listed A record the
run reaches the confirmation, reads "yes" and calls `svc.ChangeResourceRecordSets` with
an empty change list; the SDK rejects it before sending, so no request is issued, and
the run ends with exit code 1 although the provider returned no error. -/
theorem main_submit_empty :
    determineContext emptyWorld.profile = (".xyz.", "HOSTED_ZONEID", none) ∧
    emptyWorld.sessionError = none ∧
    fetchLoop "HOSTED_ZONEID" ".xyz." emptyWorld.listResponses
        (constructInput (some "HOSTED_ZONEID") none none none) [] =
      ([constructInput (some "HOSTED_ZONEID") none none none], FetchOutcome.done []) ∧
    printRecords [] emptyWorld.profile ≠ none ∧
    emptyWorld.stdin = "yes" ∧
    emptyWorld.changeError = none ∧
    makeChanges [] ".xyz." emptyWorld.mode = some [] ∧
    (main emptyWorld).changeRequests = [] ∧
    (main emptyWorld).exit = Exit.code 1 :=
  ⟨by decide, rfl, by decide, by decide, rfl, rfl, by decide, by decide, by decide⟩

/-- C8, amended: when the run has reached the confirmation (valid profile, session
created, listing loop left with `valid`, table printed) and the confirmation line is
"yes", `svc.ChangeResourceRecordSets` is called exactly once; the change list of the
call is `makeChanges valid domain mode`, one change per accumulated record, and its zone
id is the one `determineContext` returned. The SDK sends the call as one request to
the provider exactly when its parameters are valid, which needs at least one change
(and, in every change, a non-empty set identifier if any and a complete alias target);
then the run ends with exit code 1 if the provider returns an error and with exit
code 0 otherwise. When the parameters are not valid, as when no valid record was
fetched, nothing is sent and the run ends with exit code 1. -/
theorem main_submit (w : World) (domain hostedZoneID : String)
    (reqs : List ListResourceRecordSetsInput) (valid : List ResourceRecordSet)
    (hc : determineContext w.profile = (domain, hostedZoneID, none))
    (hs : w.sessionError = none)
    (hf : fetchLoop hostedZoneID domain w.listResponses
        (constructInput (some hostedZoneID) none none none) [] =
          (reqs, FetchOutcome.done valid))
    (hprint : printRecords valid w.profile ≠ none)
    (hyes : firstLine w.stdin = "yes") :
    ∃ (changes : List Change) (input : ChangeResourceRecordSetsInput),
      makeChanges valid domain w.mode = some changes ∧
      changes.length = valid.length ∧
      input = { ChangeBatch := some { Changes := changes, Comment := none }
                HostedZoneId := some hostedZoneID } ∧
      (main w).listRequests = reqs ∧
      (main w).changeCalls = [input] ∧
      (validateChangeInput input = true ↔
        (valid ≠ [] ∧ ∀ r ∈ valid, r.SetIdentifier ≠ some "" ∧
          ∀ t, r.AliasTarget = some t →
            t.EvaluateTargetHealth ≠ none ∧ t.HostedZoneId ≠ none)) ∧
      (validateChangeInput input = true →
        (main w).changeRequests = [input] ∧
        (w.changeError ≠ none → (main w).exit = Exit.code 1) ∧
        (w.changeError = none → (main w).exit = Exit.code 0)) ∧
      (validateChangeInput input = false →
        (main w).changeRequests = [] ∧ (main w).exit = Exit.code 1) := by
  have hfields := (printRecordsRows_ne_none_iff valid).1 hprint
  have halias : ∀ r ∈ valid, aliasDNSName r ≠ none := fun r hr => (hfields r hr).2.1
  have hret := fetchLoop_done_retained hostedZoneID domain w.listResponses _ [] reqs valid hf
    (by simp)
  have hmk := makeChanges_of_alias valid domain w.mode halias
  have hpc : printChanges (valid.map (plannedChange domain w.mode)) w.profile ≠ none :=
    printChangesRows_planned domain w.mode valid
      (fun r hr => ⟨(hfields r hr).1, (hfields r hr).2.1⟩)
  have hword := scanln_of_firstLine w.stdin hyes
  have hzone := determineContext_zone w.profile domain hostedZoneID hc
  have hmain := main_after_fetch w domain hostedZoneID reqs valid hc hs hf
  refine ⟨_, _, hmk, by simp, rfl, ?_, ?_, ?_, ?_, ?_⟩
  · rw [main_listRequests w domain hostedZoneID hc hs, hf]
  · rw [hmain]
    cases hp : printRecords valid w.profile with
    | none => exact absurd hp hprint
    | some rows =>
      simp only [hword, hmk, ne_eq, not_true_eq_false, if_false]
      repeat' split
      all_goals rfl
  · rw [hzone, validateChangeInput_planned]
    constructor
    · rintro ⟨hne, hall⟩
      refine ⟨hne, fun r hr => ?_⟩
      obtain ⟨_, _, hset, ht⟩ := (validateChange_planned domain w.mode r).1 (hall r hr)
      exact ⟨hset, fun t hT => (ht t hT).2⟩
    · rintro ⟨hne, hall⟩
      refine ⟨hne, fun r hr => ?_⟩
      obtain ⟨htype, _⟩ := (retained_iff domain r).1 (hret r hr)
      refine (validateChange_planned domain w.mode r).2
        ⟨(hfields r hr).1, by rw [htype]; exact Option.some_ne_none _, (hall r hr).1,
          fun t hT => ⟨?_, (hall r hr).2 t hT⟩⟩
      have hd := halias r hr
      simpa [aliasDNSName, hT] using hd
  · intro hv
    rw [hmain]
    cases hp : printRecords valid w.profile with
    | none => exact absurd hp hprint
    | some rows =>
      cases hce : w.changeError with
      | some e => simp [hword, hmk, changeResourceRecordSets, hv, hce]
      | none =>
        cases hq : printChanges (valid.map (plannedChange domain w.mode)) w.profile with
        | none => exact absurd hq hpc
        | some rows2 => simp [hword, hmk, changeResourceRecordSets, hv, hce, hq]
  · intro hv
    rw [hmain]
    cases hp : printRecords valid w.profile with
    | none => exact absurd hp hprint
    | some rows => simp [hword, hmk, changeResourceRecordSets, hv]

/-- Instance of `main_submit` on the sample listing, confirmed with "yes" and accepted
by the provider. -/
theorem main_submit_witness :
    printRecords [sampleRecord "RECORD_NAME.xyz." "A" "RECORD_NAME.xyz." 0,
        sampleRecord "RECORD_NAME.xyz." "A" "k8s.example." 100] "dev" ≠ none ∧
    firstLine (sampleWorld "on" "yes" none).stdin = "yes" ∧
    ∃ (changes : List Change) (input : ChangeResourceRecordSetsInput),
      makeChanges [sampleRecord "RECORD_NAME.xyz." "A" "RECORD_NAME.xyz." 0,
        sampleRecord "RECORD_NAME.xyz." "A" "k8s.example." 100] ".xyz." "on" = some changes ∧
      changes.length = 2 ∧
      input = { ChangeBatch := some { Changes := changes, Comment := none }
                HostedZoneId := some "HOSTED_ZONEID" } ∧
      (main (sampleWorld "on" "yes" none)).changeCalls = [input] :=
  ⟨by decide, by decide,
   (main_submit (sampleWorld "on" "yes" none) ".xyz." "HOSTED_ZONEID" _ _ (by decide) rfl
      (fetchLoop_pages "HOSTED_ZONEID" ".xyz." sampleLast [] (by decide) (by decide)
        samplePre _ [] (by decide) (by decide))
      (by decide) (by decide)).imp
     (fun _ h => h.imp (fun _ g => ⟨g.1, g.2.1, g.2.2.1, g.2.2.2.2.1⟩))⟩

end MaintenanceScript
